import Mathlib

/-!
# Role-poll bot: capacity-limited role assignment

A shallow embedding of `bot.go`: the two in-memory maps of the bot (`roles`,
`users`), the component branch of `HandleInteractionCreateEvent` with its
locked section and the role calls issued after it, and the branches of
`handleCommandInteraction`.

Modelling conventions

* `discord.RoleID` and `discord.UserID` are unsigned 64-bit snowflakes; only
  equality is ever used on them, so they are natural numbers.
* `int64` counters are integers; every `++`, `--` and `- 1` of the source goes
  through `wrapInt64`, the two's-complement wrap-around of Go.
* A Go `map` is an association list read with `mapGet` (first match) and
  written with `mapSet` (overwrite in place, else append).  Reading a missing
  key with the one-result form `m[k]` yields the zero value of the value type.
* Library and platform calls (`discord.ParseSnowflake`, `IntValue`, the outcome
  of `RemoveRole`) are parameters, collected in `Platform`.
-/

namespace GuildBot

/-! ## Identifiers and machine integers -/

/-- The type `discord.RoleID`. -/
abbrev RoleID := Nat

/-- The type `discord.UserID`. -/
abbrev UserID := Nat

/-- The library constant `discord.NullRoleID = RoleID(NullSnowflake)`, where
`NullSnowflake = ^Snowflake(0)`, the largest unsigned 64-bit value. -/
def NullRoleID : RoleID := 18446744073709551615

/-- Largest `int64`. -/
def maxInt64 : Int := 9223372036854775807

/-- Smallest `int64`. -/
def minInt64 : Int := -9223372036854775808

/-- Two's-complement wrap-around of an integer into the `int64` range. -/
def wrapInt64 (x : Int) : Int :=
  (x + 9223372036854775808) % 18446744073709551616 - 9223372036854775808

/-! ## Go maps as association lists -/

/-- Two-result map read `v, ok := m[k]`: `some v` when present, `none` when not. -/
def mapGet {ν : Type} : List (Nat × ν) → Nat → Option ν
  | [], _ => none
  | (k', v) :: t, k => if k' = k then some v else mapGet t k

/-- Map write `m[k] = v`: overwrite the entry of `k`, or add one. -/
def mapSet {ν : Type} : List (Nat × ν) → Nat → ν → List (Nat × ν)
  | [], k, v => [(k, v)]
  | (k', v') :: t, k, v => if k' = k then (k, v) :: t else (k', v') :: mapSet t k v

/-- The keys of a map. -/
def mapKeys {ν : Type} (m : List (Nat × ν)) : List Nat := m.map Prod.fst

/-! ## Data model (`bot.go`, lines 16-28) -/

/-- The struct `type PollRole struct { emoji, label string; limit, def int64 }`;
the field `def` is spelled `dflt`. -/
structure PollRole where
  emoji : String
  label : String
  limit : Int
  dflt : Int
  deriving DecidableEq, Repr

/-- The zero value of `PollRole`, which Go returns for a missing key. -/
def PollRole.zero : PollRole := { emoji := "", label := "", limit := 0, dflt := 0 }

/-- The mutable part of `type bot struct`: the role registry and the
user-to-role assignment. -/
structure bot where
  roles : List (RoleID × PollRole)
  users : List (UserID × RoleID)
  deriving DecidableEq, Repr

/-- The maps created in `main`: both empty. -/
def bot.init : bot := { roles := [], users := [] }

/-! ## Platform calls and responses -/

/-- The library and platform calls the handler makes, whose code is outside the
repository: `discord.ParseSnowflake` and `IntValue` (`none` is an error
result), and whether a `RemoveRole` call succeeds. -/
structure Platform where
  ParseSnowflake : String → Option RoleID
  IntValue : String → Option Int
  RemoveRole : UserID → RoleID → Bool

/-- A call to the role API of the platform. -/
inductive RoleCall where
  | RemoveRole (userID : UserID) (roleID : RoleID)
  | AddRole (userID : UserID) (roleID : RoleID)
  deriving DecidableEq, Repr

/-- The two values of `api.InteractionResponseType` that the bot uses. -/
inductive ResponseType where
  | MessageInteractionWithSource
  | UpdateMessage
  deriving DecidableEq, Repr

/-- One `discord.ButtonComponent` as filled in by `buildButtonsResp`. -/
structure Button where
  customID : String
  label : String
  emoji : String
  disabled : Bool
  deriving DecidableEq, Repr

/-- The `api.InteractionResponse` values the bot builds: a plain text
(`NullableStringResp`) or a row of buttons. -/
inductive Response where
  | message (msg : String)
  | buttons (typ : ResponseType) (row : List Button)
  deriving DecidableEq, Repr

/-- The function `NullableStringResp`, lines 208-215. -/
def NullableStringResp (msg : String) : Response := Response.message msg

/-- The function `buildButtonsResp`, lines 178-206. -/
def buildButtonsResp (b : bot) (typ : ResponseType) (disableAll : Bool) : Response :=
  let row : List Button := b.roles.map fun kv =>
    { customID := toString kv.1,
      label := kv.2.label ++ " " ++ toString kv.2.limit,
      emoji := kv.2.emoji,
      disabled := disableAll || decide (kv.2.limit = (0 : Int)) }
  if row.length = 0 then NullableStringResp "Нет ролей"
  else Response.buttons typ row

/-! ## The component-interaction branch (`bot.go`, lines 77-116) -/

/-- What the locked section leaves behind: the new maps and the two locals
`wasRole` and `finalRole` read after `Unlock`. -/
structure Locked where
  b : bot
  wasRole : RoleID
  finalRole : RoleID
  deriving DecidableEq, Repr

/-- The locked section, lines 88-104 of `HandleInteractionCreateEvent`. -/
def tryAssign (b : bot) (userID : UserID) (roleID : RoleID) : Locked :=
  match mapGet b.roles roleID with
  | none => { b := b, wasRole := NullRoleID, finalRole := NullRoleID }
  | some v =>
    -- `wasRole, ok = b.users[userID]`: zero value and `false` when missing
    let wasRole : RoleID := (mapGet b.users userID).getD 0
    let ok : Bool := (mapGet b.users userID).isSome
    let roles1 : List (RoleID × PollRole) :=
      if ok ∧ wasRole ≠ roleID then
        -- `vv := b.roles[wasRole]`: zero value when missing
        let vv : PollRole := (mapGet b.roles wasRole).getD PollRole.zero
        if wrapInt64 (v.limit - 1) ≥ 0 then
          mapSet b.roles wasRole { vv with limit := wrapInt64 (vv.limit + 1) }
        else b.roles
      else b.roles
    -- `v.limit--`
    let v1 : PollRole := { v with limit := wrapInt64 (v.limit - 1) }
    if v1.limit ≥ 0 ∧ wasRole ≠ roleID then
      { b := { roles := mapSet roles1 roleID v1, users := mapSet b.users userID roleID },
        wasRole := wasRole, finalRole := roleID }
    else
      { b := { roles := roles1, users := b.users },
        wasRole := wasRole, finalRole := NullRoleID }

/-- The test of line 106, `finalRole == roleID`: the caller treats the
selection as a change exactly when it holds. -/
def changed (b : bot) (userID : UserID) (roleID : RoleID) : Bool :=
  decide ((tryAssign b userID roleID).finalRole = roleID)

/-- Lines 106-115: the role calls issued after `Unlock`, in order. -/
def roleCalls (userID : UserID) (roleID wasRole finalRole : RoleID) : List RoleCall :=
  if finalRole = roleID then
    (if wasRole ≠ NullRoleID then [RoleCall.RemoveRole userID wasRole] else [])
      ++ [RoleCall.AddRole userID roleID]
  else []

/-- The data of a component interaction that the handler reads: the member's
user id and the custom id of the pressed button. -/
structure ComponentInteraction where
  userID : UserID
  ID : String
  deriving DecidableEq, Repr

/-- The component branch of `HandleInteractionCreateEvent`, lines 77-116: the
maps afterwards, the role calls issued after `Unlock`, and the response sent
(none when the custom id does not parse as a snowflake). -/
def HandleInteractionCreateEvent (p : Platform) (b : bot) (e : ComponentInteraction) :
    bot × List RoleCall × Option Response :=
  match p.ParseSnowflake e.ID with
  | none => (b, [], none)
  | some roleID =>
    let r := tryAssign b e.userID roleID
    (r.b, roleCalls e.userID roleID r.wasRole r.finalRole,
      some (buildButtonsResp r.b ResponseType.UpdateMessage false))

/-! ## The command branch (`bot.go`, lines 126-176) -/

/-- The `"poll"` branch under the lock, lines 130-140: every role gets
`limit = def`; `b.users` is only read (to launch the `RemoveRole` calls). -/
def startPoll (b : bot) : bot :=
  { roles := b.roles.map fun kv => (kv.1, { kv.2 with limit := kv.2.dflt }),
    users := b.users }

/-- The `RemoveRole` calls launched by the `"poll"` branch, one per entry of
`b.users` (lines 135-139). -/
def pollCalls (b : bot) : List RoleCall :=
  b.users.map fun kv => RoleCall.RemoveRole kv.1 kv.2

/-- The `"clear"` branch, line 147: a fresh empty `roles` map. -/
def clearSlots (b : bot) : bot :=
  { roles := [], users := b.users }

/-- The write of the `"add"` branch, lines 163-170. -/
def defineSlot (b : bot) (roleID : RoleID) (label emoji : String) (limit : Int) : bot :=
  { roles := mapSet b.roles roleID { emoji := emoji, label := label, limit := limit, dflt := limit },
    users := b.users }

/-- The `discord.CommandInteraction` as the handler reads it: the command name
and the four options of `"add"` (the text of `label`, `role`, `emoji`, and the
raw value of `limit`). -/
structure CommandInteraction where
  Name : String
  label : String
  role : String
  limit : String
  emoji : String
  deriving DecidableEq, Repr

/-- The function `handleCommandInteraction`, lines 126-176. -/
def handleCommandInteraction (p : Platform) (b : bot) (data : CommandInteraction) :
    bot × Response :=
  if data.Name = "poll" then
    let b1 := startPoll b
    -- `eg.Wait()` reports an error when some `RemoveRole` failed
    if b.users.all (fun kv => p.RemoveRole kv.1 kv.2) then
      (b1, buildButtonsResp b1 ResponseType.MessageInteractionWithSource false)
    else (b1, NullableStringResp "ERROR: internal")
  else if data.Name = "clear" then
    (clearSlots b, NullableStringResp "Success")
  else if data.Name = "status" then
    (b, buildButtonsResp b ResponseType.MessageInteractionWithSource true)
  else if data.Name = "add" then
    match p.ParseSnowflake data.role with
    | none => (b, NullableStringResp "ERROR: bad role")
    | some roleID =>
      match p.IntValue data.limit with
      | none => (b, NullableStringResp "ERROR: bad limit")
      | some limit => (defineSlot b roleID data.label data.emoji limit, NullableStringResp "Success")
  else (b, NullableStringResp ("ERROR: unknown command: " ++ data.Name))

/-! ## Sequences of operations -/

/-- The number of entries of `users` whose role is `roleID`. -/
def assignedCount (users : List (UserID × RoleID)) (roleID : RoleID) : Nat :=
  (users.filter fun kv => decide (kv.2 = roleID)).length

/-- A run of selections: the locked section applied to each `(user, role)`
pair in turn. -/
def assignAll (b : bot) : List (UserID × RoleID) → bot
  | [] => b
  | c :: cs => assignAll (tryAssign b c.1 c.2).b cs

/-- The operations that change the two maps. -/
inductive Op where
  | define (roleID : RoleID) (label emoji : String) (limit : Int)
  | assign (userID : UserID) (roleID : RoleID)
  | poll
  | clear
  deriving DecidableEq, Repr

/-- One completed operation. -/
def Op.apply (b : bot) : Op → bot
  | Op.define roleID label emoji limit => defineSlot b roleID label emoji limit
  | Op.assign userID roleID => (tryAssign b userID roleID).b
  | Op.poll => startPoll b
  | Op.clear => clearSlots b

/-- A sequence of completed operations, left to right. -/
def run (b : bot) : List Op → bot
  | [] => b
  | o :: os => run (o.apply b) os

/-- The capacities given to `define` operations in a sequence. -/
def definedLimits : List Op → List Int
  | [] => []
  | Op.define _ _ _ limit :: os => limit :: definedLimits os
  | _ :: os => definedLimits os

/-! ## Invariants -/

/-- The bookkeeping invariant of a run of selections: no user is recorded
twice, every recorded role is registered, and for every registered role the
free places plus the users recorded with it make up `def`, with `limit`
non-negative and `def` an `int64`. -/
def Conserved (b : bot) : Prop :=
  (mapKeys b.users).Nodup ∧
  (∀ u w, mapGet b.users u = some w → ∃ v, mapGet b.roles w = some v) ∧
  (∀ k v, mapGet b.roles k = some v →
    v.limit + (assignedCount b.users k : Int) = v.dflt ∧ 0 ≤ v.limit ∧ v.dflt ≤ maxInt64)

/-- Every registered role has `limit` and `def` between 0 and `B`. -/
def Bounded (B : Int) (b : bot) : Prop :=
  ∀ k v, mapGet b.roles k = some v → 0 ≤ v.limit ∧ v.limit ≤ B ∧ 0 ≤ v.dflt ∧ v.dflt ≤ B

/-! ## Sample platform, states and runs -/

/-- A platform for examples: decimal role references `"5"` and `"7"`, the
capacities `"0"`, `"1"` and `"3"`, and role removals that succeed. -/
def demoPlatform : Platform :=
  { ParseSnowflake := fun s => if s = "5" then some 5 else if s = "7" then some 7 else none,
    IntValue := fun s => if s = "0" then some 0 else if s = "1" then some 1
      else if s = "3" then some 3 else none,
    RemoveRole := fun _ _ => true }

/-- A role with label `"l"`, emoji `"e"` and the given counters. -/
def sampleRole (limit dflt : Int) : PollRole :=
  { emoji := "e", label := "l", limit := limit, dflt := dflt }

/-- Role 5 is full; nobody is recorded. -/
def fullState : bot := { roles := [(5, sampleRole 0 1)], users := [] }

/-- Role 5 has one free place; nobody is recorded. -/
def freeState : bot := { roles := [(5, sampleRole 1 1)], users := [] }

/-- Role 5 is taken by user 1 and full. -/
def takenState : bot := { roles := [(5, sampleRole 0 1)], users := [(1, 5)] }

/-- Role 0 has one free place; nobody is recorded. -/
def zeroRoleState : bot := { roles := [(0, sampleRole 1 1)], users := [] }

/-- User 1 is recorded with role 5, which is no longer in the registry (as
after `"clear"` and a fresh `"add"` of role 2). -/
def staleState : bot := { roles := [(2, sampleRole 1 1)], users := [(1, 5)] }

/-- Role 1 ("A") is held by user 1 and full; role 2 ("B") has one free place. -/
def switchState : bot :=
  { roles := [(1, sampleRole 0 1), (2, sampleRole 1 1)], users := [(1, 1)] }

/-- User 1 holds role 1, whose counter is at the largest `int64`; role 2 has
one free place. -/
def maxedState : bot :=
  { roles := [(1, sampleRole 9223372036854775807 9223372036854775807), (2, sampleRole 1 1)],
    users := [(1, 1)] }

/-- The scenario of the specification: roles 1 ("red") and 2 ("blue"), one
place each, nobody recorded. -/
def scenarioState : bot := { roles := [(1, sampleRole 1 1), (2, sampleRole 1 1)], users := [] }

/-- The selections of the scenario: user 1 takes red, user 2 is refused red,
user 1 moves to blue, user 2 takes red. -/
def scenarioCalls : List (UserID × RoleID) := [(1, 1), (2, 1), (1, 2), (2, 1)]

/-- Five operations from the empty bot: role 1 is added with the largest
`int64` as capacity, role 2 with capacity 1, user 1 takes role 1, role 1 is
added again, user 1 moves to role 2. -/
def overflowOps : List Op :=
  [Op.define 1 "a" "e" 9223372036854775807, Op.define 2 "b" "e" 1, Op.assign 1 1,
   Op.define 1 "a" "e" 9223372036854775807, Op.assign 1 2]

/-- The scenario of the specification as operations, followed by a poll, a
clear and a new role. -/
def scenarioOps : List Op :=
  [Op.define 1 "red" "e" 1, Op.define 2 "blue" "e" 1, Op.assign 1 1, Op.assign 2 1,
   Op.assign 1 2, Op.assign 2 1, Op.poll, Op.clear, Op.define 3 "green" "e" 2, Op.assign 1 3]

/-- The `"poll"` command. -/
def pollCommand : CommandInteraction :=
  { Name := "poll", label := "", role := "", limit := "", emoji := "" }

/-- The `"add"` command for role `"5"` with the given raw capacity. -/
def addCommand (limit : String) : CommandInteraction :=
  { Name := "add", label := "lab", role := "5", limit := limit, emoji := "em" }

/-! ## Lemmas on wrap-around and maps -/

/-- Inside the `int64` range the wrap-around does nothing. -/
theorem wrapInt64_eq (x : Int) (h1 : minInt64 ≤ x) (h2 : x ≤ maxInt64) : wrapInt64 x = x := by
  unfold wrapInt64
  unfold minInt64 at h1
  unfold maxInt64 at h2
  omega

/-- Reading the key just written gives the value written. -/
theorem mapGet_mapSet_self {ν : Type} (m : List (Nat × ν)) (k : Nat) (v : ν) :
    mapGet (mapSet m k v) k = some v := by
  induction m with
  | nil => simp [mapSet, mapGet]
  | cons e t ih =>
    obtain ⟨k1, v1⟩ := e
    by_cases h : k1 = k
    · simp [mapSet, mapGet, h]
    · simp [mapSet, mapGet, h, ih]

/-- Writing a key leaves the reading of every other key as it was. -/
theorem mapGet_mapSet_ne {ν : Type} (m : List (Nat × ν)) (k j : Nat) (v : ν) (hj : j ≠ k) :
    mapGet (mapSet m k v) j = mapGet m j := by
  induction m with
  | nil =>
    have : ¬ k = j := fun e => hj e.symm
    simp [mapSet, mapGet, this]
  | cons e t ih =>
    obtain ⟨k1, v1⟩ := e
    by_cases h : k1 = k
    · have : ¬ k = j := fun e => hj e.symm
      subst h
      simp [mapSet, mapGet, this]
    · by_cases h2 : k1 = j
      · subst h2
        simp [mapSet, mapGet, h]
      · simp [mapSet, mapGet, h, h2, ih]

/-- What a read returns is an entry of the list. -/
theorem mapGet_mem {ν : Type} (m : List (Nat × ν)) (k : Nat) (v : ν)
    (h : mapGet m k = some v) : (k, v) ∈ m := by
  induction m with
  | nil => simp [mapGet] at h
  | cons e t ih =>
    obtain ⟨k1, v1⟩ := e
    by_cases hk : k1 = k
    · simp only [mapGet, hk, if_true, Option.some.injEq] at h
      simp [hk, h]
    · simp only [mapGet, hk, if_false] at h
      exact List.mem_cons_of_mem _ (ih h)

/-- Reading after rewriting every value in place. -/
theorem mapGet_map_snd {ν : Type} (f : ν → ν) (m : List (Nat × ν)) (k : Nat) :
    mapGet (m.map fun kv => (kv.1, f kv.2)) k = (mapGet m k).map f := by
  induction m with
  | nil => simp [mapGet]
  | cons e t ih =>
    obtain ⟨k1, v1⟩ := e
    by_cases h : k1 = k
    · simp [mapGet, h]
    · simp [mapGet, h, ih]

/-- A write keeps the keys, or appends the new key. -/
theorem mapKeys_mapSet {ν : Type} (m : List (Nat × ν)) (k : Nat) (v : ν) :
    mapKeys (mapSet m k v) = if k ∈ mapKeys m then mapKeys m else mapKeys m ++ [k] := by
  induction m with
  | nil => simp [mapSet, mapKeys]
  | cons e t ih =>
    obtain ⟨k1, v1⟩ := e
    by_cases h : k1 = k
    · subst h
      simp [mapSet, mapKeys]
    · have h2 : ¬ (k = k1) := fun e => h e.symm
      simp only [mapKeys] at ih
      simp only [mapSet, h, if_false, mapKeys, List.map_cons, List.mem_cons, h2, false_or, ih]
      split <;> simp

/-- A write never duplicates a key. -/
theorem mapKeys_mapSet_nodup {ν : Type} (m : List (Nat × ν)) (k : Nat) (v : ν)
    (h : (mapKeys m).Nodup) : (mapKeys (mapSet m k v)).Nodup := by
  rw [mapKeys_mapSet]
  split
  · exact h
  · rename_i hk
    rw [List.nodup_append]
    refine ⟨h, List.nodup_singleton k, ?_⟩
    intro a ha hb
    simp at hb
    subst hb
    exact hk ha

/-! ## Lemmas on counting recorded users -/

/-- Counting through the first entry. -/
theorem assignedCount_cons (e : UserID × RoleID) (t : List (UserID × RoleID)) (k : RoleID) :
    assignedCount (e :: t) k = (if e.2 = k then 1 else 0) + assignedCount t k := by
  unfold assignedCount
  by_cases h : e.2 = k
  · simp [List.filter_cons, h]
    omega
  · simp [List.filter_cons, h]

/-- Recording a user who had no entry adds one to the count of the new role. -/
theorem assignedCount_mapSet_none (m : List (UserID × RoleID)) (u : UserID) (r k : RoleID)
    (h : mapGet m u = none) :
    assignedCount (mapSet m u r) k = assignedCount m k + (if r = k then 1 else 0) := by
  induction m with
  | nil =>
    simp only [mapSet, assignedCount_cons]
    simp [assignedCount]
  | cons e t ih =>
    obtain ⟨u1, w1⟩ := e
    by_cases hu : u1 = u
    · simp [mapGet, hu] at h
    · simp only [mapGet, hu, if_false] at h
      simp only [mapSet, hu, if_false, assignedCount_cons, ih h]
      omega

/-- Re-recording a user moves one unit of count from the old role to the new. -/
theorem assignedCount_mapSet_some (m : List (UserID × RoleID)) (u : UserID) (r w k : RoleID)
    (h : mapGet m u = some w) :
    assignedCount (mapSet m u r) k + (if w = k then 1 else 0)
      = assignedCount m k + (if r = k then 1 else 0) := by
  induction m with
  | nil => simp [mapGet] at h
  | cons e t ih =>
    obtain ⟨u1, w1⟩ := e
    by_cases hu : u1 = u
    · simp only [mapGet, hu, if_true, Option.some.injEq] at h
      subst h
      simp only [mapSet, hu, if_true, assignedCount_cons]
      omega
    · simp only [mapGet, hu, if_false] at h
      have := ih h
      simp only [mapSet, hu, if_false, assignedCount_cons]
      omega

/-- A recorded user is counted for the role recorded. -/
theorem assignedCount_pos (m : List (UserID × RoleID)) (u : UserID) (w : RoleID)
    (h : mapGet m u = some w) : 1 ≤ assignedCount m w := by
  induction m with
  | nil => simp [mapGet] at h
  | cons e t ih =>
    obtain ⟨u1, w1⟩ := e
    by_cases hu : u1 = u
    · simp only [mapGet, hu, if_true, Option.some.injEq] at h
      subst h
      simp [assignedCount_cons]
    · simp only [mapGet, hu, if_false] at h
      have := ih h
      simp only [assignedCount_cons]
      omega

/-! ## The four cases of the locked section -/

/-- The locked section on a role that is not registered. -/
theorem tryAssign_unknown (b : bot) (u : UserID) (r : RoleID) (h : mapGet b.roles r = none) :
    tryAssign b u r = { b := b, wasRole := NullRoleID, finalRole := NullRoleID } := by
  simp [tryAssign, h]

/-- The locked section when the selected role is full or is the role read from
`users` (0 when the user has no entry): nothing is written. -/
theorem tryAssign_reject (b : bot) (u : UserID) (r : RoleID) (v : PollRole)
    (h : mapGet b.roles r = some v)
    (hn : ¬ (wrapInt64 (v.limit - 1) ≥ 0 ∧ (mapGet b.users u).getD 0 ≠ r)) :
    tryAssign b u r
      = { b := b, wasRole := (mapGet b.users u).getD 0, finalRole := NullRoleID } := by
  by_cases h1 : wrapInt64 (v.limit - 1) ≥ 0
  · have h2 : (mapGet b.users u).getD 0 = r := by
      by_contra hc
      exact hn ⟨h1, hc⟩
    simp [tryAssign, h, h2]
  · simp [tryAssign, h, h1]

/-- The locked section accepting a user without an entry. -/
theorem tryAssign_first (b : bot) (u : UserID) (r : RoleID) (v : PollRole)
    (h : mapGet b.roles r = some v) (hu : mapGet b.users u = none)
    (hl : wrapInt64 (v.limit - 1) ≥ 0) (hr : r ≠ 0) :
    tryAssign b u r
      = { b := { roles := mapSet b.roles r { v with limit := wrapInt64 (v.limit - 1) },
                 users := mapSet b.users u r },
          wasRole := 0, finalRole := r } := by
  have hr2 : ¬ (0 = r) := fun e => hr e.symm
  simp [tryAssign, h, hu, hl, hr2]

/-- The locked section accepting a user who is recorded with another role. -/
theorem tryAssign_switch (b : bot) (u : UserID) (r w : RoleID) (v : PollRole)
    (h : mapGet b.roles r = some v) (hu : mapGet b.users u = some w)
    (hl : wrapInt64 (v.limit - 1) ≥ 0) (hw : w ≠ r) :
    tryAssign b u r
      = { b := { roles := mapSet
                   (mapSet b.roles w
                     { (mapGet b.roles w).getD PollRole.zero with
                       limit := wrapInt64 (((mapGet b.roles w).getD PollRole.zero).limit + 1) })
                   r { v with limit := wrapInt64 (v.limit - 1) },
                 users := mapSet b.users u r },
          wasRole := w, finalRole := r } := by
  simp [tryAssign, h, hu, hl, hw]

/-- The shape of the result whenever the acceptance test of line 98 passes. -/
theorem tryAssign_accept (b : bot) (u : UserID) (r : RoleID) (v : PollRole)
    (h : mapGet b.roles r = some v)
    (ha : wrapInt64 (v.limit - 1) ≥ 0 ∧ (mapGet b.users u).getD 0 ≠ r) :
    ∃ roles1 : List (RoleID × PollRole),
      tryAssign b u r
        = { b := { roles := mapSet roles1 r { v with limit := wrapInt64 (v.limit - 1) },
                   users := mapSet b.users u r },
            wasRole := (mapGet b.users u).getD 0, finalRole := r } := by
  obtain ⟨h1, h2⟩ := ha
  simp only [tryAssign, h]
  simp only [h1, h2, ge_iff_le, ne_eq, not_false_eq_true, and_self, if_true]
  exact ⟨_, rfl⟩

/-! ## C1: conservation of capacity -/

/-- The locked section preserves the bookkeeping invariant. -/
theorem Conserved_tryAssign (b : bot) (u : UserID) (r : RoleID) (hb : Conserved b) :
    Conserved (tryAssign b u r).b := by
  obtain ⟨hnd, hreg, hcons⟩ := hb
  cases hg : mapGet b.roles r with
  | none =>
    rw [tryAssign_unknown b u r hg]
    exact ⟨hnd, hreg, hcons⟩
  | some v =>
    by_cases ha : wrapInt64 (v.limit - 1) ≥ 0 ∧ (mapGet b.users u).getD 0 ≠ r
    swap
    · rw [tryAssign_reject b u r v hg ha]
      exact ⟨hnd, hreg, hcons⟩
    obtain ⟨hl, hne⟩ := ha
    obtain ⟨hv1, hv2, hv3⟩ := hcons r v hg
    have hcnt : (0 : Int) ≤ (assignedCount b.users r : Int) := Int.ofNat_nonneg _
    have hw1 : wrapInt64 (v.limit - 1) = v.limit - 1 := by
      apply wrapInt64_eq
      · unfold minInt64; omega
      · unfold maxInt64 at *; omega
    rw [hw1] at hl
    cases hu : mapGet b.users u with
    | none =>
      have hr0 : r ≠ 0 := by
        intro e
        apply hne
        simp [hu, e]
      rw [tryAssign_first b u r v hg hu (by rw [hw1]; exact hl) hr0, hw1]
      refine ⟨mapKeys_mapSet_nodup _ _ _ hnd, ?_, ?_⟩
      · intro u2 w2 h2
        by_cases e : u2 = u
        · subst e
          rw [mapGet_mapSet_self] at h2
          cases h2
          exact ⟨_, mapGet_mapSet_self _ _ _⟩
        · rw [mapGet_mapSet_ne _ _ _ _ e] at h2
          obtain ⟨v2, hv⟩ := hreg u2 w2 h2
          by_cases e2 : w2 = r
          · subst e2
            exact ⟨_, mapGet_mapSet_self _ _ _⟩
          · exact ⟨v2, by rw [mapGet_mapSet_ne _ _ _ _ e2]; exact hv⟩
      · intro k vk hk
        have hc := assignedCount_mapSet_none b.users u r k hu
        by_cases e : k = r
        · subst e
          rw [mapGet_mapSet_self] at hk
          cases hk
          simp only [if_true] at hc
          simp only [hc]
          refine ⟨?_, ?_, hv3⟩
          · push_cast; omega
          · omega
        · rw [mapGet_mapSet_ne _ _ _ _ e] at hk
          have e2 : ¬ (r = k) := fun x => e x.symm
          simp only [e2, if_false, Nat.add_zero] at hc
          rw [hc]
          exact hcons k vk hk
    | some w =>
      have hwr : w ≠ r := by
        intro e
        apply hne
        simp [hu, e]
      obtain ⟨vw, hgw⟩ := hreg u w hu
      obtain ⟨hw1a, hw2, hw3⟩ := hcons w vw hgw
      have hpos := assignedCount_pos b.users u w hu
      have hww : wrapInt64 (vw.limit + 1) = vw.limit + 1 := by
        apply wrapInt64_eq
        · unfold minInt64; omega
        · unfold maxInt64 at *; omega
      rw [tryAssign_switch b u r w v hg hu (by rw [hw1]; exact hl) hwr, hw1, hgw]
      simp only [Option.getD_some, hww]
      refine ⟨mapKeys_mapSet_nodup _ _ _ hnd, ?_, ?_⟩
      · intro u2 w2 h2
        have key : ∀ j, (∃ x, mapGet b.roles j = some x) →
            ∃ x, mapGet (mapSet (mapSet b.roles w { vw with limit := vw.limit + 1 }) r
              { v with limit := v.limit - 1 }) j = some x := by
          intro j hj
          by_cases e1 : j = r
          · subst e1
            exact ⟨_, mapGet_mapSet_self _ _ _⟩
          · rw [mapGet_mapSet_ne _ _ _ _ e1]
            by_cases e2 : j = w
            · subst e2
              exact ⟨_, mapGet_mapSet_self _ _ _⟩
            · rw [mapGet_mapSet_ne _ _ _ _ e2]
              exact hj
        by_cases e : u2 = u
        · subst e
          rw [mapGet_mapSet_self] at h2
          cases h2
          exact key _ ⟨v, hg⟩
        · rw [mapGet_mapSet_ne _ _ _ _ e] at h2
          exact key _ (hreg u2 w2 h2)
      · intro k vk hk
        have hc := assignedCount_mapSet_some b.users u r w k hu
        by_cases e : k = r
        · subst e
          rw [mapGet_mapSet_self] at hk
          cases hk
          simp only [hwr, if_false, if_true, Nat.add_zero] at hc
          refine ⟨?_, ?_, hv3⟩
          · simp only [hc]; push_cast; omega
          · simp only; omega
        · rw [mapGet_mapSet_ne _ _ _ _ e] at hk
          have e2 : ¬ (r = k) := fun x => e x.symm
          by_cases e3 : k = w
          · subst e3
            rw [mapGet_mapSet_self] at hk
            cases hk
            simp only [e2, if_false, if_true, Nat.add_zero] at hc
            refine ⟨?_, ?_, hw3⟩
            · simp only; omega
            · simp only; omega
          · rw [mapGet_mapSet_ne _ _ _ _ e3] at hk
            have e4 : ¬ (w = k) := fun x => e3 x.symm
            simp only [e2, e4, if_false, Nat.add_zero] at hc
            rw [hc]
            exact hcons k vk hk

/-- Every run of selections preserves the bookkeeping invariant. -/
theorem Conserved_assignAll (calls : List (UserID × RoleID)) :
    ∀ b : bot, Conserved b → Conserved (assignAll b calls) := by
  induction calls with
  | nil => intro b hb; exact hb
  | cons c cs ih =>
    intro b hb
    exact ih _ (Conserved_tryAssign b c.1 c.2 hb)

/-- C1. Start from a state where every registered role has `limit = def`
with `1 ≤ def` an `int64`, and `users` is empty. After every finite sequence
of selections (the locked section run on arbitrary users and roles), no user
is recorded twice and every registered role satisfies
`limit + (number of users recorded with that role) = def`. -/
theorem capacity_conservation (b : bot) (calls : List (UserID × RoleID))
    (hu : b.users = [])
    (hd : ∀ k v, mapGet b.roles k = some v → v.limit = v.dflt ∧ 1 ≤ v.dflt ∧ v.dflt ≤ maxInt64) :
    (mapKeys (assignAll b calls).users).Nodup ∧
    ∀ k v, mapGet (assignAll b calls).roles k = some v →
      v.limit + (assignedCount (assignAll b calls).users k : Int) = v.dflt := by
  have h0 : Conserved b := by
    refine ⟨by simp [hu, mapKeys], ?_, ?_⟩
    · intro u w h
      simp [hu, mapGet] at h
    · intro k v h
      obtain ⟨h1, h2, h3⟩ := hd k v h
      refine ⟨by simp [hu, assignedCount, h1], by omega, h3⟩
  obtain ⟨h1, _, h3⟩ := Conserved_assignAll calls b h0
  exact ⟨h1, fun k v h => (h3 k v h).1⟩

/-- C1, at the scenario of the specification: in the end red (role 1) has no
free place and exactly one user recorded, with `def = 1`. -/
theorem capacity_conservation_witness :
    scenarioState.users = [] ∧
      (∀ e ∈ scenarioState.roles, e.2.limit = e.2.dflt ∧ 1 ≤ e.2.dflt ∧ e.2.dflt ≤ maxInt64) ∧
      mapGet (assignAll scenarioState scenarioCalls).roles 1 = some (sampleRole 0 1) ∧
      (sampleRole 0 1).limit + (assignedCount (assignAll scenarioState scenarioCalls).users 1 : Int)
        = (sampleRole 0 1).dflt :=
  ⟨rfl, by decide, by decide,
    (capacity_conservation scenarioState scenarioCalls rfl
      (fun k v h => (by decide : ∀ e ∈ scenarioState.roles,
        e.2.limit = e.2.dflt ∧ 1 ≤ e.2.dflt ∧ e.2.dflt ≤ maxInt64) (k, v) (mapGet_mem _ _ _ h))).2
      1 (sampleRole 0 1) (by decide)⟩

/-! ## C2: the `"poll"` command -/

/-- The poll reset: every registered role ends with `limit = def`, and the
`users` map is the one before. -/
theorem startPoll_effect (b : bot) :
    (∀ k v, mapGet (startPoll b).roles k = some v → v.limit = v.dflt) ∧
      (startPoll b).users = b.users := by
  refine ⟨?_, rfl⟩
  intro k v hk
  simp only [startPoll] at hk
  rw [mapGet_map_snd (fun x : PollRole => { x with limit := x.dflt })] at hk
  cases hg : mapGet b.roles k with
  | none => simp [hg] at hk
  | some v0 =>
    simp only [hg, Option.map_some', Option.some.injEq] at hk
    subst hk
    rfl

/-- C2. On a bot where user 1 holds the full role 5, the `"poll"` command
launches `RemoveRole` for user 1 and resets the counter of role 5, but leaves
user 1 recorded with role 5: the `users` map is not emptied. -/
theorem poll_keeps_users :
    pollCalls takenState = [RoleCall.RemoveRole 1 5] ∧
      (handleCommandInteraction demoPlatform takenState pollCommand).1
        = { roles := [(5, sampleRole 1 1)], users := [(1, 5)] } ∧
      mapGet (handleCommandInteraction demoPlatform takenState pollCommand).1.users 1
        = some 5 := by
  decide

/-! ## C3: a rejected selection leaves both maps as they were -/

/-- C3. Whenever the locked section does not report a change (`finalRole` is
not the selected role: unknown role, re-click of the current role, or a full
role, also when the user holds another role), the `roles` and `users` maps
after it are equal to those before it. -/
theorem rejected_state_untouched (b : bot) (u : UserID) (r : RoleID)
    (h : changed b u r = false) : (tryAssign b u r).b = b := by
  cases hg : mapGet b.roles r with
  | none => rw [tryAssign_unknown b u r hg]
  | some v =>
    by_cases ha : wrapInt64 (v.limit - 1) ≥ 0 ∧ (mapGet b.users u).getD 0 ≠ r
    · obtain ⟨roles1, he⟩ := tryAssign_accept b u r v hg ha
      simp [changed, he] at h
    · rw [tryAssign_reject b u r v hg ha]

/-- C3, at a full role selected by an unrecorded user. -/
theorem rejected_state_untouched_witness :
    changed fullState 1 5 = false ∧ (tryAssign fullState 1 5).b = fullState :=
  ⟨by decide, rejected_state_untouched fullState 1 5 (by decide)⟩

/-! ## C4: when a selection is accepted -/

/-- The acceptance condition away from the two special ids: for a selected
role other than `NullRoleID` whose `limit` is an `int64` above the smallest,
and a user who has an entry or selects a role other than 0, the selection is
reported as a change exactly when the role is registered, the user's entry
is absent or another role, and the role's `limit` is at least 1. -/
theorem acceptance_iff (b : bot) (u : UserID) (r : RoleID) (hr : r ≠ NullRoleID)
    (h0 : r ≠ 0 ∨ (mapGet b.users u).isSome = true)
    (hrange : ∀ v, mapGet b.roles r = some v → minInt64 < v.limit ∧ v.limit ≤ maxInt64) :
    changed b u r = true ↔
      ∃ v, mapGet b.roles r = some v ∧ mapGet b.users u ≠ some r ∧ 1 ≤ v.limit := by
  have hr2 : ¬ (NullRoleID = r) := fun e => hr e.symm
  cases hg : mapGet b.roles r with
  | none => simp [changed, tryAssign_unknown b u r hg, hr2]
  | some v =>
    obtain ⟨hv1, hv2⟩ := hrange v hg
    have hw1 : wrapInt64 (v.limit - 1) = v.limit - 1 := by
      apply wrapInt64_eq
      · unfold minInt64 at *; omega
      · unfold maxInt64 at *; omega
    have hne : (mapGet b.users u).getD 0 ≠ r ↔ mapGet b.users u ≠ some r := by
      cases hu : mapGet b.users u with
      | none =>
        have : r ≠ 0 := by
          rcases h0 with h | h
          · exact h
          · simp [hu] at h
        simp only [Option.getD_none, ne_eq, reduceCtorEq, not_false_eq_true, iff_true]
        exact fun e => this e.symm
      | some w => simp
    by_cases ha : wrapInt64 (v.limit - 1) ≥ 0 ∧ (mapGet b.users u).getD 0 ≠ r
    · obtain ⟨roles1, he⟩ := tryAssign_accept b u r v hg ha
      have h1 : changed b u r = true := by simp [changed, he]
      simp only [h1, true_iff]
      refine ⟨v, rfl, hne.mp ha.2, ?_⟩
      have := ha.1
      rw [hw1] at this
      omega
    · have h1 : changed b u r = false := by
        simp [changed, tryAssign_reject b u r v hg ha, hr2]
      simp only [h1, Bool.false_eq_true, false_iff]
      rintro ⟨v2, hv, hn, hl⟩
      cases hv
      apply ha
      refine ⟨?_, hne.mpr hn⟩
      rw [hw1]
      omega

/-- C4. Role 0 is known and has a free place, user 1 has no entry, and yet
the selection is not reported as a change and nothing is recorded. -/
theorem unassigned_user_rejected_for_role_zero :
    mapGet zeroRoleState.roles 0 = some (sampleRole 1 1) ∧
      mapGet zeroRoleState.users 1 = none ∧
      changed zeroRoleState 1 0 = false ∧
      (tryAssign zeroRoleState 1 0).b = zeroRoleState := by
  decide

/-! ## C5: the effect of an accepted selection -/

/-- C5 as stated fails in two places. Selecting the id `NullRoleID` on the
empty bot is reported as a change although no entry is recorded for the user;
and when the user's previous role has `limit` at the largest `int64`, the
accepted move leaves it at the smallest `int64`, not one more. -/
theorem accepted_move_edge_cases :
    (changed bot.init 1 NullRoleID = true ∧
      mapGet (tryAssign bot.init 1 NullRoleID).b.users 1 = none) ∧
    (changed maxedState 1 2 = true ∧
      mapGet maxedState.roles 1 = some (sampleRole maxInt64 maxInt64) ∧
      mapGet (tryAssign maxedState 1 2).b.roles 1 = some (sampleRole minInt64 maxInt64)) := by
  decide

/-- C5, amended. Let every registered `limit` be an `int64`, the selected role
not be `NullRoleID`, its `limit` not the smallest `int64`, and the `limit` of
the user's previous role (if registered) not the largest `int64`. Whenever the
selection is reported as a change: the user is recorded with the selected
role; the selected role is registered and its `limit` is one less, its other
fields kept; a previous role of the user differs from the selected one and,
if registered, has `limit` one more, its other fields kept; every role other
than the selected one and the user's previous one is as before; and every
other user's entry is as before. -/
theorem accepted_move_effect (b : bot) (u : UserID) (r : RoleID)
    (hr : r ≠ NullRoleID)
    (hrange : ∀ k v, mapGet b.roles k = some v → minInt64 ≤ v.limit ∧ v.limit ≤ maxInt64)
    (htarget : ∀ v, mapGet b.roles r = some v → v.limit ≠ minInt64)
    (hprev : ∀ w vw, mapGet b.users u = some w → mapGet b.roles w = some vw →
      vw.limit ≠ maxInt64)
    (hc : changed b u r = true) :
    mapGet (tryAssign b u r).b.users u = some r ∧
    (∃ v, mapGet b.roles r = some v ∧
      mapGet (tryAssign b u r).b.roles r = some { v with limit := v.limit - 1 }) ∧
    (∀ w, mapGet b.users u = some w → w ≠ r ∧
      ∀ vw, mapGet b.roles w = some vw →
        mapGet (tryAssign b u r).b.roles w = some { vw with limit := vw.limit + 1 }) ∧
    (∀ k, k ≠ r → mapGet b.users u ≠ some k →
      mapGet (tryAssign b u r).b.roles k = mapGet b.roles k) ∧
    (∀ u2, u2 ≠ u → mapGet (tryAssign b u r).b.users u2 = mapGet b.users u2) := by
  have hr2 : ¬ (NullRoleID = r) := fun e => hr e.symm
  cases hg : mapGet b.roles r with
  | none =>
    rw [changed, tryAssign_unknown b u r hg] at hc
    simp [hr2] at hc
  | some v =>
    by_cases ha : wrapInt64 (v.limit - 1) ≥ 0 ∧ (mapGet b.users u).getD 0 ≠ r
    swap
    · rw [changed, tryAssign_reject b u r v hg ha] at hc
      simp [hr2] at hc
    obtain ⟨hl, hne⟩ := ha
    have hv := hrange r v hg
    have hvm := htarget v hg
    have hw1 : wrapInt64 (v.limit - 1) = v.limit - 1 := by
      apply wrapInt64_eq
      · unfold minInt64 at *; omega
      · unfold maxInt64 at *; omega
    cases hu : mapGet b.users u with
    | none =>
      have hr0 : r ≠ 0 := by
        intro e
        apply hne
        simp [hu, e]
      rw [tryAssign_first b u r v hg hu hl hr0, hw1]
      refine ⟨mapGet_mapSet_self _ _ _, ⟨v, rfl, mapGet_mapSet_self _ _ _⟩, ?_, ?_, ?_⟩
      · intro w hw
        cases hw
      · intro k hk _
        exact mapGet_mapSet_ne _ _ _ _ hk
      · intro u2 h2
        exact mapGet_mapSet_ne _ _ _ _ h2
    | some w =>
      have hwr : w ≠ r := by
        intro e
        apply hne
        simp [hu, e]
      rw [tryAssign_switch b u r w v hg hu hl hwr, hw1]
      refine ⟨mapGet_mapSet_self _ _ _, ⟨v, rfl, mapGet_mapSet_self _ _ _⟩, ?_, ?_, ?_⟩
      · intro w2 hw2
        cases hw2
        refine ⟨hwr, ?_⟩
        intro vw hvw
        have hq := hrange w vw hvw
        have hp := hprev w vw hu hvw
        have hww : wrapInt64 (vw.limit + 1) = vw.limit + 1 := by
          apply wrapInt64_eq
          · unfold minInt64 at *; omega
          · unfold maxInt64 at *; omega
        rw [mapGet_mapSet_ne _ _ _ _ hwr, mapGet_mapSet_self, hvw]
        simp only [Option.getD_some, hww]
      · intro k hk hkw
        have hkw2 : k ≠ w := by
          intro e
          apply hkw
          rw [e]
        rw [mapGet_mapSet_ne _ _ _ _ hk, mapGet_mapSet_ne _ _ _ _ hkw2]
      · intro u2 h2
        exact mapGet_mapSet_ne _ _ _ _ h2

/-- C5 amended, at a switch: user 1 moves from the full role 1 to role 2,
after which role 1 has a free place again and a different user 2 is accepted
for it. -/
theorem accepted_move_effect_witness :
    (2 : RoleID) ≠ NullRoleID ∧ changed switchState 1 2 = true ∧
      mapGet (tryAssign switchState 1 2).b.users 1 = some 2 ∧
      mapGet (tryAssign switchState 1 2).b.roles 1 = some (sampleRole 1 1) ∧
      changed (tryAssign switchState 1 2).b 2 1 = true :=
  have hall : ∀ e ∈ switchState.roles,
      minInt64 ≤ e.2.limit ∧ e.2.limit ≤ maxInt64 ∧ e.2.limit ≠ minInt64 ∧ e.2.limit ≠ maxInt64 := by
    decide
  have h := accepted_move_effect switchState 1 2 (by decide)
    (fun k v hk => ⟨(hall (k, v) (mapGet_mem _ _ _ hk)).1, (hall (k, v) (mapGet_mem _ _ _ hk)).2.1⟩)
    (fun v hk => (hall (2, v) (mapGet_mem _ _ _ hk)).2.2.1)
    (fun w vw _ hk => (hall (w, vw) (mapGet_mem _ _ _ hk)).2.2.2)
    (by decide)
  ⟨by decide, by decide, h.1, (h.2.2.1 1 (by decide)).2 (sampleRole 0 1) (by decide), by decide⟩

/-! ## C6: a previous role that is no longer registered -/

/-- C6. User 1 is recorded with the unregistered role 5 and selects role 2:
the locked section adds an entry for role 5 to the registry, the zero
`PollRole` with `limit` 1. -/
theorem stale_previous_role_gets_an_entry :
    mapGet staleState.users 1 = some 5 ∧
      mapKeys staleState.roles = [2] ∧
      mapKeys (tryAssign staleState 1 2).b.roles = [2, 5] ∧
      mapGet (tryAssign staleState 1 2).b.roles 5
        = some { emoji := "", label := "", limit := 1, dflt := 0 } := by
  decide

/-! ## C7: counters never negative -/

/-- A larger bound still bounds. -/
theorem Bounded_mono (B C : Int) (b : bot) (h : Bounded B b) (hBC : B ≤ C) : Bounded C b := by
  intro k v hk
  obtain ⟨h1, h2, h3, h4⟩ := h k v hk
  exact ⟨h1, by omega, h3, by omega⟩

/-- Writing a role within the bound keeps the registry within the bound. -/
theorem Bounded_mapSet (B : Int) (b : bot) (k : RoleID) (v : PollRole) (users : List (UserID × RoleID))
    (h : Bounded B b) (hv : 0 ≤ v.limit ∧ v.limit ≤ B ∧ 0 ≤ v.dflt ∧ v.dflt ≤ B) :
    Bounded B { roles := mapSet b.roles k v, users := users } := by
  intro j vj hj
  by_cases e : j = k
  · subst e
    simp only [mapGet_mapSet_self, Option.some.injEq] at hj
    subst hj
    exact hv
  · simp only [mapGet_mapSet_ne _ _ _ _ e] at hj
    exact h j vj hj

/-- The locked section raises the bound by at most one, below the wrap-around. -/
theorem Bounded_tryAssign (B : Int) (b : bot) (u : UserID) (r : RoleID)
    (h : Bounded B b) (hB0 : 0 ≤ B) (hB : B + 1 ≤ maxInt64) :
    Bounded (B + 1) (tryAssign b u r).b := by
  have hmono : Bounded (B + 1) b := Bounded_mono B (B + 1) b h (by omega)
  cases hg : mapGet b.roles r with
  | none =>
    rw [tryAssign_unknown b u r hg]
    exact hmono
  | some v =>
    by_cases ha : wrapInt64 (v.limit - 1) ≥ 0 ∧ (mapGet b.users u).getD 0 ≠ r
    swap
    · rw [tryAssign_reject b u r v hg ha]
      exact hmono
    obtain ⟨hl, hne⟩ := ha
    obtain ⟨hv1, hv2, hv3, hv4⟩ := h r v hg
    have hw1 : wrapInt64 (v.limit - 1) = v.limit - 1 := by
      apply wrapInt64_eq
      · unfold minInt64; omega
      · unfold maxInt64 at *; omega
    have hl2 := hl
    rw [hw1] at hl2
    cases hu : mapGet b.users u with
    | none =>
      have hr0 : r ≠ 0 := by
        intro e
        apply hne
        simp [hu, e]
      rw [tryAssign_first b u r v hg hu hl hr0, hw1]
      exact Bounded_mapSet (B + 1) b r _ _ hmono ⟨by simpa using hl2, by simp only; omega, hv3, by simp only; omega⟩
    | some w =>
      have hwr : w ≠ r := by
        intro e
        apply hne
        simp [hu, e]
      rw [tryAssign_switch b u r w v hg hu hl hwr, hw1]
      have hprev : Bounded (B + 1)
          { roles := mapSet b.roles w
              { (mapGet b.roles w).getD PollRole.zero with
                limit := wrapInt64 (((mapGet b.roles w).getD PollRole.zero).limit + 1) },
            users := b.users } := by
        apply Bounded_mapSet (B + 1) b w _ _ hmono
        cases hgw : mapGet b.roles w with
        | none =>
          simp only [Option.getD_none, PollRole.zero]
          have : wrapInt64 (0 + 1) = 1 := by decide
          rw [this]
          omega
        | some vw =>
          obtain ⟨a1, a2, a3, a4⟩ := h w vw hgw
          have hww : wrapInt64 (vw.limit + 1) = vw.limit + 1 := by
            apply wrapInt64_eq
            · unfold minInt64; omega
            · unfold maxInt64 at *; omega
          simp only [Option.getD_some, hww]
          omega
      exact Bounded_mapSet (B + 1) _ r _ _ hprev ⟨by simpa using hl2, by simp only; omega, hv3, by simp only; omega⟩

/-- The poll reset keeps the bound. -/
theorem Bounded_startPoll (B : Int) (b : bot) (h : Bounded B b) : Bounded B (startPoll b) := by
  intro k v hk
  simp only [startPoll] at hk
  rw [mapGet_map_snd (fun x : PollRole => { x with limit := x.dflt })] at hk
  cases hg : mapGet b.roles k with
  | none => simp [hg] at hk
  | some v0 =>
    simp only [hg, Option.map_some', Option.some.injEq] at hk
    subst hk
    obtain ⟨_, _, a3, a4⟩ := h k v0 hg
    exact ⟨a3, a4, a3, a4⟩

/-- A sequence of `n` operations raises the bound by at most `n`, below the
wrap-around. -/
theorem Bounded_run (ops : List Op) :
    ∀ (b : bot) (B : Int), Bounded B b → 0 ≤ B →
      (∀ c ∈ definedLimits ops, 1 ≤ c ∧ c ≤ B) → B + (ops.length : Int) ≤ maxInt64 →
      Bounded (B + (ops.length : Int)) (run b ops) := by
  induction ops with
  | nil =>
    intro b B h _ _ _
    simpa [run] using h
  | cons o os ih =>
    intro b B h hB0 hcap hlen
    simp only [List.length_cons, Nat.cast_add, Nat.cast_one] at hlen ⊢
    have hlen0 : (0 : Int) ≤ (os.length : Int) := Int.ofNat_nonneg _
    have hstep : Bounded (B + 1) (o.apply b) := by
      cases o with
      | define roleID label emoji limit =>
        have hc := hcap limit (by simp [definedLimits])
        exact Bounded_mapSet (B + 1) b roleID _ _ (Bounded_mono B (B + 1) b h (by omega))
          ⟨by simp only; omega, by simp only; omega, by simp only; omega, by simp only; omega⟩
      | assign userID roleID =>
        exact Bounded_tryAssign B b userID roleID h hB0 (by omega)
      | poll =>
        exact Bounded_mono B (B + 1) _ (Bounded_startPoll B b h) (by omega)
      | clear =>
        intro k v hk
        simp [Op.apply, clearSlots, mapGet] at hk
    have hcap2 : ∀ c ∈ definedLimits os, 1 ≤ c ∧ c ≤ B + 1 := by
      intro c hc
      have hmem : c ∈ definedLimits (o :: os) := by
        cases o <;> simp [definedLimits, hc]
      have := hcap c hmem
      omega
    have := ih (o.apply b) (B + 1) hstep (by omega) hcap2 (by omega)
    have e : B + 1 + (os.length : Int) = B + ((os.length : Int) + 1) := by ring
    rw [e] at this
    exact this

/-- C7 as stated fails on 64-bit counters: after the five operations of
`overflowOps`, each completed and each `define` with capacity at least 1,
role 1 has `limit` equal to the smallest `int64`, a negative number. -/
theorem counter_wraps_negative :
    (∀ c ∈ definedLimits overflowOps, 1 ≤ c) ∧
      mapGet (run bot.init overflowOps).roles 1
        = some { emoji := "e", label := "a", limit := -9223372036854775808,
                 dflt := 9223372036854775807 } := by
  decide

/-- C7, amended. In every state reached from the empty bot by a sequence of
`n` completed operations (`define` with a capacity between 1 and `M`,
selections, `poll`, `clear`) with `M + n` no larger than the largest `int64`,
every registered role has `limit ≥ 0`. -/
theorem no_double_booking (ops : List Op) (M : Int) (hM : 1 ≤ M)
    (hcap : ∀ c ∈ definedLimits ops, 1 ≤ c ∧ c ≤ M)
    (hlen : M + (ops.length : Int) ≤ maxInt64) :
    ∀ k v, mapGet (run bot.init ops).roles k = some v → 0 ≤ v.limit := by
  intro k v hk
  have h0 : Bounded M bot.init := by
    intro j vj hj
    simp [bot.init, mapGet] at hj
  exact (Bounded_run ops bot.init M h0 (by omega) hcap hlen k v hk).1

/-- C7 amended, at the scenario of the specification followed by a poll, a
clear and a new role: ten operations, capacities at most 2, and role 3 ends
with one free place. -/
theorem no_double_booking_witness :
    (1 : Int) ≤ 2 ∧ (∀ c ∈ definedLimits scenarioOps, 1 ≤ c ∧ c ≤ 2) ∧
      (2 : Int) + (scenarioOps.length : Int) ≤ maxInt64 ∧
      mapGet (run bot.init scenarioOps).roles 3
        = some { emoji := "e", label := "green", limit := 1, dflt := 2 } ∧
      (0 : Int) ≤ 1 :=
  ⟨by decide, by decide, by decide, by decide,
    no_double_booking scenarioOps 2 (by decide) (by decide) (by decide) 3
      { emoji := "e", label := "green", limit := 1, dflt := 2 } (by decide)⟩

/-! ## C8: selecting the same role again -/

/-- C8 as stated fails for the role id `NullRoleID`: with no roles defined,
selecting it is reported as a change, and so is selecting it again. -/
theorem reselect_null_role_changes_again :
    changed bot.init 1 NullRoleID = true ∧
      changed (tryAssign bot.init 1 NullRoleID).b 1 NullRoleID = true := by
  decide

/-- C8, amended. For every role id other than `NullRoleID`: if a selection is
reported as a change, the same selection made again is not, and it leaves
both maps as the first one left them. -/
theorem reselect_is_noop (b : bot) (u : UserID) (r : RoleID) (hr : r ≠ NullRoleID)
    (h : changed b u r = true) :
    changed (tryAssign b u r).b u r = false ∧
      (tryAssign (tryAssign b u r).b u r).b = (tryAssign b u r).b := by
  have hr2 : ¬ (NullRoleID = r) := fun e => hr e.symm
  cases hg : mapGet b.roles r with
  | none =>
    rw [changed, tryAssign_unknown b u r hg] at h
    simp [hr2] at h
  | some v =>
    by_cases ha : wrapInt64 (v.limit - 1) ≥ 0 ∧ (mapGet b.users u).getD 0 ≠ r
    · obtain ⟨roles1, he⟩ := tryAssign_accept b u r v hg ha
      rw [he]
      have hn : ¬ (wrapInt64 (({ v with limit := wrapInt64 (v.limit - 1) } : PollRole).limit - 1) ≥ 0 ∧
          (mapGet (mapSet b.users u r) u).getD 0 ≠ r) := by
        rw [mapGet_mapSet_self]
        simp
      have h2 := tryAssign_reject
        { roles := mapSet roles1 r { v with limit := wrapInt64 (v.limit - 1) },
          users := mapSet b.users u r } u r _ (mapGet_mapSet_self _ _ _) hn
      constructor
      · simp only [changed]
        rw [h2]
        simp [hr2]
      · rw [h2]
    · rw [changed, tryAssign_reject b u r v hg ha] at h
      simp [hr2] at h

/-- C8 amended, at a free role selected twice by the same user. -/
theorem reselect_is_noop_witness :
    (5 : RoleID) ≠ NullRoleID ∧ changed freeState 1 5 = true ∧
      changed (tryAssign freeState 1 5).b 1 5 = false ∧
      (tryAssign (tryAssign freeState 1 5).b 1 5).b = (tryAssign freeState 1 5).b :=
  ⟨by decide, by decide, reselect_is_noop freeState 1 5 (by decide) (by decide)⟩

/-! ## C9: the `"add"` command -/

/-- C9 as stated fails: with capacity 0 the `"add"` command answers
`"Success"` and registers role 5 with `limit = def = 0`. -/
theorem add_accepts_capacity_zero :
    demoPlatform.IntValue (addCommand "0").limit = some 0 ∧
      handleCommandInteraction demoPlatform bot.init (addCommand "0")
        = ({ roles := [(5, { emoji := "em", label := "lab", limit := 0, dflt := 0 })],
             users := [] },
           Response.message "Success") := by
  decide

/-- C9, amended. The `"add"` command answers with an error and leaves both maps
unchanged when the role reference does not parse or the capacity is not an
integer; otherwise, for every integer capacity, it answers `"Success"`, the
registry maps the role id to a role with the given label and emoji and
`limit = def = capacity`, every other registry entry is as before, and the
`users` map is untouched. -/
theorem add_command_result (p : Platform) (b : bot) (data : CommandInteraction)
    (hn : data.Name = "add") :
    (p.ParseSnowflake data.role = none →
      handleCommandInteraction p b data = (b, Response.message "ERROR: bad role")) ∧
    (∀ id : RoleID, p.ParseSnowflake data.role = some id → p.IntValue data.limit = none →
      handleCommandInteraction p b data = (b, Response.message "ERROR: bad limit")) ∧
    (∀ (id : RoleID) (c : Int),
      p.ParseSnowflake data.role = some id → p.IntValue data.limit = some c →
      (handleCommandInteraction p b data).2 = Response.message "Success" ∧
      (handleCommandInteraction p b data).1.users = b.users ∧
      mapGet (handleCommandInteraction p b data).1.roles id
        = some { emoji := data.emoji, label := data.label, limit := c, dflt := c } ∧
      ∀ j : RoleID, j ≠ id →
        mapGet (handleCommandInteraction p b data).1.roles j = mapGet b.roles j) := by
  have e1 : ¬ ("add" = "poll") := by decide
  have e2 : ¬ ("add" = "clear") := by decide
  have e3 : ¬ ("add" = "status") := by decide
  refine ⟨?_, ?_, ?_⟩
  · intro h1
    simp only [handleCommandInteraction, hn, e1, e2, e3, if_false, if_true, h1,
      NullableStringResp]
  · intro id h1 h2
    simp only [handleCommandInteraction, hn, e1, e2, e3, if_false, if_true, h1, h2,
      NullableStringResp]
  · intro id c h1 h2
    simp only [handleCommandInteraction, hn, e1, e2, e3, if_false, if_true, h1, h2,
      NullableStringResp, defineSlot]
    refine ⟨trivial, trivial, mapGet_mapSet_self _ _ _, ?_⟩
    intro j hj
    exact mapGet_mapSet_ne _ _ _ _ hj

/-- C9 amended, at `"add"` of role `"5"` with capacity `"3"` on the empty bot. -/
theorem add_command_result_witness :
    (addCommand "3").Name = "add" ∧
      (handleCommandInteraction demoPlatform bot.init (addCommand "3")).2
        = Response.message "Success" ∧
      mapGet (handleCommandInteraction demoPlatform bot.init (addCommand "3")).1.roles 5
        = some { emoji := "em", label := "lab", limit := 3, dflt := 3 } :=
  have h := (add_command_result demoPlatform bot.init (addCommand "3") rfl).2.2 5 3
    (by decide) (by decide)
  ⟨rfl, h.1, h.2.2.1⟩

/-! ## C10: the role calls after the locked section -/

/-- C10. User 1 has no entry and presses the button of the free role 5: the
handler first calls `RemoveRole` for role 0, then `AddRole` for role 5. -/
theorem first_assignment_revokes_role_zero :
    mapGet freeState.users 1 = none ∧
      (HandleInteractionCreateEvent demoPlatform freeState { userID := 1, ID := "5" }).2.1
        = [RoleCall.RemoveRole 1 0, RoleCall.AddRole 1 5] := by
  decide

end GuildBot
